import Mathlib

/-!
Shallow embedding of the consumption-aggregation and incremental-statistics
engine of the `ail` Home Assistant integration
(`custom_components/ail/coordinator.py` and `api_client.py`).

Timestamps are modelled as epoch seconds (`Int`); datetime operations of the
source are translated accordingly:
  * `dt.replace(minute=0, second=0, microsecond=0)`  ↦  `hourFloor`
  * `dt.hour`                                        ↦  `hourOf`
  * `dt + timedelta(hours=1)`                        ↦  `· + 3600`
  * `dt.timestamp()`                                 ↦  the epoch value itself
Float quantities are modelled as `ℚ`.  Python dictionaries are modelled as
insertion-ordered association lists (`List (Int × ConsumptionData)`), with
`lookupKey` / `setKey` mirroring `d[k]` reads and writes (a write to an
existing key keeps its position, a write to a fresh key appends at the end),
exactly as CPython dicts behave.
-/

set_option autoImplicit false

namespace AIL

/-- `datetime.replace(minute=0, second=0, microsecond=0)` on an epoch-second
timestamp: floor to the enclosing hour (Lean's `Int` `/` is Euclidean
division, which for the positive divisor 3600 agrees with Python's floor
division). -/
def hourFloor (t : Int) : Int := 3600 * (t / 3600)

/-- `datetime.hour` of an epoch-second timestamp (UTC). -/
def hourOf (t : Int) : Int := (t / 3600) % 24

/-- Model of `coordinator.ConsumptionData` (a `@dataclass`): `day`/`night`
consumption, interval bounds, and the `tickers` sample counter
(default `0`). -/
structure ConsumptionData where
  day : ℚ
  night : ℚ
  from_date : Int
  to_date : Int
  tickers : Nat := 0
  deriving Repr, DecidableEq

/-- The `total` property: `self.day + self.night`. -/
def ConsumptionData.total (c : ConsumptionData) : ℚ := c.day + c.night

/-- An insertion-ordered Python dict keyed by hour-start timestamps. -/
abbrev HourlyMap := List (Int × ConsumptionData)

/-- `d.get(k)` / `k in d`: first (and, for maps built by `setKey`, only)
binding of the key. -/
def lookupKey : HourlyMap → Int → Option ConsumptionData
  | [], _ => none
  | (k, v) :: rest, key => if k = key then some v else lookupKey rest key

/-- `d[k] = v`: overwrite in place when the key exists, append otherwise —
CPython dict insertion-order semantics. -/
def setKey : HourlyMap → Int → ConsumptionData → HourlyMap
  | [], key, val => [(key, val)]
  | (k, v) :: rest, key, val =>
      if k = key then (k, val) :: rest else (k, v) :: setKey rest key val

/-- The fresh bucket created for an unseen `hour_key`:
`ConsumptionData(day=0.0, night=0.0, from_date=hour_key,
to_date=hour_key + timedelta(hours=1), tickers=0)`. -/
def emptyBucket (hourKey : Int) : ConsumptionData :=
  { day := 0, night := 0, from_date := hourKey, to_date := hourKey + 3600, tickers := 0 }

/-- The classification test of `_sum_hourly_consumptions`:
`0 <= current.from_date.hour < 7 and 0 <= current.to_date.hour <= 7`. -/
def ConsumptionData.isNightBucket (c : ConsumptionData) : Bool :=
  (decide (0 ≤ hourOf c.from_date) && decide (hourOf c.from_date < 7)) &&
    (decide (0 ≤ hourOf c.to_date) && decide (hourOf c.to_date ≤ 7))

/-- One loop iteration of `_sum_hourly_consumptions` acting on the bucket
`cur` for a reading `c`: `current.night += consumption.day` in the night
branch, `current.day += consumption.day` otherwise, then
`current.tickers += 1`.  (The source adds `consumption.day` in both
branches; `consumption.night` is never read here.) -/
def addReading (cur : ConsumptionData) (c : ConsumptionData) : ConsumptionData :=
  let cur' :=
    if cur.isNightBucket then { cur with night := cur.night + c.day }
    else { cur with day := cur.day + c.day }
  { cur' with tickers := cur'.tickers + 1 }

/-- One loop iteration of `_sum_hourly_consumptions` on the whole map:
derive `hour_key`, create the bucket if absent, fold the reading in. -/
def sumHourlyStep (m : HourlyMap) (c : ConsumptionData) : HourlyMap :=
  let hourKey := hourFloor c.from_date
  let cur := (lookupKey m hourKey).getD (emptyBucket hourKey)
  setKey m hourKey (addReading cur c)

/-- `EnergyDataUpdateCoordinator._sum_hourly_consumptions`: bucket readings by
hour, then keep only buckets with `tickers >= 4`. -/
def sumHourly (consumptions : List ConsumptionData) : HourlyMap :=
  match consumptions with
  | [] => []
  | _ => (consumptions.foldl sumHourlyStep []).filter (fun kv => 4 ≤ kv.2.tickers)

/-- Model of the recorder `StatisticData` rows built by
`_insert_statistic_type`: `start=hour, state=value, sum=sum_value`. -/
structure StatisticData where
  start : Int
  state : ℚ
  sum : ℚ
  deriving Repr, DecidableEq

/-- The three series merged per update cycle; selects which attribute
`getattr(consumption, data_type)` reads. -/
inductive SeriesKind where
  | day
  | night
  | total
  deriving Repr, DecidableEq

/-- `getattr(consumption, data_type)` for `data_type` in
`{"day", "night", "total"}` (`total` is the `day + night` property). -/
def valueOf (c : ConsumptionData) : SeriesKind → ℚ
  | .day => c.day
  | .night => c.night
  | .total => c.day + c.night

/-- The skip guard of `_insert_statistic_type`:
`if last_stats_time and hour.timestamp() <= last_stats_time: continue`.
Python truthiness: `None` and `0.0` are both falsy, so the guard only skips
when a last-statistics time exists, is nonzero, and is at or after `hour`. -/
def truthySkip (lastStatsTime : Option Int) (hour : Int) : Bool :=
  match lastStatsTime with
  | none => false
  | some t => (t != 0) && decide (hour ≤ t)

/-- The statistics-building loop of `_insert_statistic_type`: iterate the map
in its (insertion) order, skip guarded hours, otherwise
`sum_value += value` and append `StatisticData(start=hour, state=value,
sum=sum_value)`. -/
def insertPoints (k : SeriesKind) (lastStatsTime : Option Int) :
    ℚ → HourlyMap → List StatisticData
  | _, [] => []
  | sumValue, (hour, c) :: rest =>
      if truthySkip lastStatsTime hour then insertPoints k lastStatsTime sumValue rest
      else
        let v := valueOf c k
        ⟨hour, v, sumValue + v⟩ :: insertPoints k lastStatsTime (sumValue + v) rest

/-- The `sum_value` a merge pass starts from: the stored last sum, else
`0.0`. -/
def initialSum (last : Option (Int × ℚ)) : ℚ :=
  match last with
  | some p => p.2
  | none => 0

/-- `_insert_statistic_type` for one series: `last` models the
`get_last_statistics` result, `(start_timestamp, sum)` of the stored last
point, or `none` when the series has no statistics yet (then
`last_stats_time = None` and `sum_value = 0.0`).  Returns the batch of
points that would be handed to `async_add_external_statistics`. -/
def insertStatisticType (consumptions : HourlyMap) (k : SeriesKind)
    (last : Option (Int × ℚ)) : List StatisticData :=
  insertPoints k (last.map Prod.fst) (initialSum last) consumptions

/-- `if statistics:` — the store is written iff the assembled batch is
nonempty. -/
def performsWrite (consumptions : HourlyMap) (k : SeriesKind)
    (last : Option (Int × ℚ)) : Bool :=
  !(insertStatisticType consumptions k last).isEmpty

/-- Model of `api_client.ConsumptionRecord` (pydantic): one raw record of the
portal response, with `readingsCount` optional. -/
structure ConsumptionRecord where
  day : ℚ := 0
  from_ : Int
  to_ : Int
  is_pending : Bool
  readings_count : Option Int := none
  night : ℚ := 0
  deriving Repr, DecidableEq

/-- The filter of `ConsumptionData.from_api_response`:
`record.readings_count is not None and record.readings_count > 0`. -/
def keepRecord (r : ConsumptionRecord) : Bool :=
  match r.readings_count with
  | none => false
  | some n => decide (0 < n)

/-- `ConsumptionData.from_api_response`: keep qualifying records, in response
order, as `ConsumptionData(day=record.day, night=record.night,
from_date=record.from_, to_date=record.to)`. -/
def fromApiResponse : List ConsumptionRecord → List ConsumptionData
  | [] => []
  | r :: rest =>
      if keepRecord r then
        { day := r.day, night := r.night, from_date := r.from_, to_date := r.to_ } ::
          fromApiResponse rest
      else fromApiResponse rest

/-- `dict.update(other)`: fold every binding of `other`, in its order, into
the accumulator with dict-assignment semantics. -/
def dictUpdate (m other : HourlyMap) : HourlyMap :=
  other.foldl (fun acc kv => setKey acc kv.1 kv.2) m

/-- One iteration of the `while chunk_start < end_date` loop of
`_fetch_historical_data`: a successful chunk is fetched, converted,
aggregated and folded into `all_consumption_data`; a chunk whose
fetch/aggregate raises is logged and skipped (`except Exception`), the walk
continuing either way. -/
def processChunk (acc : HourlyMap) (chunk : Except String (List ConsumptionRecord)) :
    HourlyMap :=
  match chunk with
  | .ok resp => dictUpdate acc (sumHourly (fromApiResponse resp))
  | .error _ => acc

/-- The accumulation performed by `_fetch_historical_data` over the whole
chunk walk: the combined `all_consumption_data` map that is then merged. -/
def processChunks (chunks : List (Except String (List ConsumptionRecord))) : HourlyMap :=
  chunks.foldl processChunk []

/-- Statistic ids of `const.py`. -/
def ENERGY_CONSUMPTION_KEY : String := "ail:energy_consumption"

/-- Statistic id of the day series (`const.py`). -/
def ENERGY_DAY_CONSUMPTION_KEY : String := "ail:energy_day_consumption"

/-- Statistic id of the night series (`const.py`). -/
def ENERGY_NIGHT_CONSUMPTION_KEY : String := "ail:energy_night_consumption"

/-- Observable statistics-store operations of one update cycle:
`get_last_statistics` queries and `async_add_external_statistics` appends. -/
inductive StoreOp where
  | queryLast (statisticId : String)
  | appendBatch (statisticId : String) (points : List StatisticData)
  deriving Repr, DecidableEq

/-- The store, abstracted to what `_insert_statistic_type` reads from it:
last point `(start timestamp, sum)` per statistic id, if any. -/
def Store := String → Option (Int × ℚ)

/-- `_insert_statistic_type` as a trace of store operations: one last-point
query, then an append iff the assembled batch is nonempty. -/
def insertStatisticTypeOps (consumptions : HourlyMap) (k : SeriesKind)
    (statisticId : String) (store : Store) : List StoreOp :=
  let pts := insertStatisticType consumptions k (store statisticId)
  StoreOp.queryLast statisticId ::
    (if pts.isEmpty then [] else [StoreOp.appendBatch statisticId pts])

/-- `_insert_statistics`: early return on an empty map, otherwise the day,
night and total series are merged in that order. -/
def insertStatisticsOps (consumptions : HourlyMap) (store : Store) : List StoreOp :=
  if consumptions.isEmpty then []
  else
    insertStatisticTypeOps consumptions .day ENERGY_DAY_CONSUMPTION_KEY store ++
      insertStatisticTypeOps consumptions .night ENERGY_NIGHT_CONSUMPTION_KEY store ++
        insertStatisticTypeOps consumptions .total ENERGY_CONSUMPTION_KEY store

/-- `_async_update_data` after a successful login and fetch: convert the
response, aggregate hourly buckets, and — only when some bucket survived —
run `_insert_statistics`.  Returns the coordinator's value (last raw
consumption record, or `None`) together with the trace of store
operations performed. -/
def updateData (records : List ConsumptionRecord) (store : Store) :
    Option ConsumptionData × List StoreOp :=
  let consumptionData := fromApiResponse records
  let hourlyData := sumHourly consumptionData
  if hourlyData.isEmpty then (none, [])
  else
    (if consumptionData.isEmpty then none else consumptionData.getLast?,
      insertStatisticsOps hourlyData store)

/-- The readings contributing to the bucket keyed `key`: those whose
`from_date` floors to `key`. -/
def keyReadings (cs : List ConsumptionData) (key : Int) : List ConsumptionData :=
  cs.filter (fun c => hourFloor c.from_date = key)

/-- The classification of the bucket keyed `key`, as evaluated by
`isNightBucket` on any bucket created for `key` (all of which carry
`from_date = key`, `to_date = key + 3600`). -/
def nightKey (key : Int) : Bool :=
  (emptyBucket key).isNightBucket

/-- The bucket keyed `key` after folding in readings with day-values `ds`:
all values land in the night accumulator when the bucket classifies as
night, in the day accumulator otherwise, and `tickers` counts the
readings. -/
def mkBucket (key : Int) (ds : List ℚ) : ConsumptionData :=
  if nightKey key then
    { day := 0, night := ds.sum, from_date := key, to_date := key + 3600, tickers := ds.length }
  else
    { day := ds.sum, night := 0, from_date := key, to_date := key + 3600, tickers := ds.length }

/-- Per-key accumulation: fold readings into an optional bucket, creating it
on first contact — the per-key shadow of `sumHourlyStep`. -/
def accInto (key : Int) (ob : Option ConsumptionData) (cs : List ConsumptionData) :
    Option ConsumptionData :=
  cs.foldl (fun ob c => some (addReading (ob.getD (emptyBucket key)) c)) ob

/-! ## Association-list (Python dict) lemmas -/

theorem lookupKey_setKey_self (m : HourlyMap) (k : Int) (v : ConsumptionData) :
    lookupKey (setKey m k v) k = some v := by
  induction m with
  | nil => simp [setKey, lookupKey]
  | cons kv rest ih =>
      obtain ⟨k', v'⟩ := kv
      by_cases h : k' = k <;> simp [setKey, lookupKey, h, ih]

theorem lookupKey_setKey_ne (m : HourlyMap) (k k' : Int) (v : ConsumptionData)
    (h : k' ≠ k) : lookupKey (setKey m k v) k' = lookupKey m k' := by
  induction m with
  | nil => simp [setKey, lookupKey, Ne.symm h]
  | cons kv rest ih =>
      obtain ⟨a, b⟩ := kv
      by_cases ha : a = k
      · subst ha
        simp [setKey, lookupKey, Ne.symm h]
      · simp only [setKey, if_neg ha, lookupKey]
        by_cases hb : a = k' <;> simp [hb, ih]

theorem keys_setKey (m : HourlyMap) (k : Int) (v : ConsumptionData) :
    (setKey m k v).map Prod.fst =
      if k ∈ m.map Prod.fst then m.map Prod.fst else m.map Prod.fst ++ [k] := by
  induction m with
  | nil => simp [setKey]
  | cons kv rest ih =>
      obtain ⟨a, b⟩ := kv
      by_cases ha : a = k
      · subst ha
        simp [setKey]
      · have hka : ¬ k = a := fun e => ha e.symm
        simp only [setKey, if_neg ha, List.map_cons, List.mem_cons]
        rw [ih]
        by_cases hk : k ∈ rest.map Prod.fst <;> simp [hk, hka]

theorem keys_setKey_nodup (m : HourlyMap) (k : Int) (v : ConsumptionData)
    (h : (m.map Prod.fst).Nodup) : ((setKey m k v).map Prod.fst).Nodup := by
  rw [keys_setKey]
  by_cases hk : k ∈ m.map Prod.fst
  · simpa [hk]
  · simpa [hk] using List.Nodup.append h (List.nodup_singleton k) (by simpa using hk)

theorem lookupKey_eq_none_iff (m : HourlyMap) (k : Int) :
    lookupKey m k = none ↔ k ∉ m.map Prod.fst := by
  induction m with
  | nil => simp [lookupKey]
  | cons kv rest ih =>
      obtain ⟨a, b⟩ := kv
      by_cases ha : a = k
      · subst ha
        simp [lookupKey]
      · have hka : ¬ k = a := fun e => ha e.symm
        simp only [lookupKey, if_neg ha, List.map_cons, List.mem_cons]
        rw [ih]
        simp [hka]

theorem lookupKey_filter (m : HourlyMap) (p : Int × ConsumptionData → Bool) (k : Int)
    (h : (m.map Prod.fst).Nodup) :
    lookupKey (m.filter p) k =
      match lookupKey m k with
      | some v => if p (k, v) then some v else none
      | none => none := by
  induction m with
  | nil => simp [lookupKey]
  | cons kv rest ih =>
      obtain ⟨a, b⟩ := kv
      simp only [List.map_cons, List.nodup_cons] at h
      by_cases ha : a = k
      · subst ha
        have hnone : lookupKey (rest.filter p) a = none := by
          rw [lookupKey_eq_none_iff]
          intro hmem
          exact h.1 (by
            have hsub : (rest.filter p).map Prod.fst ⊆ rest.map Prod.fst :=
              (List.Sublist.map Prod.fst (List.filter_sublist rest)).subset
            exact hsub hmem)
        by_cases hp : p (a, b) <;> simp [List.filter_cons, hp, lookupKey, hnone]
      · by_cases hp : p (a, b) <;>
          simp [List.filter_cons, hp, lookupKey, ha, ih h.2]

/-! ## Aggregator characterization -/

theorem mkBucket_from_date (key : Int) (ds : List ℚ) :
    (mkBucket key ds).from_date = key := by
  unfold mkBucket
  by_cases h : nightKey key <;> simp [h]

theorem mkBucket_to_date (key : Int) (ds : List ℚ) :
    (mkBucket key ds).to_date = key + 3600 := by
  unfold mkBucket
  by_cases h : nightKey key <;> simp [h]

theorem mkBucket_tickers (key : Int) (ds : List ℚ) :
    (mkBucket key ds).tickers = ds.length := by
  unfold mkBucket
  by_cases h : nightKey key <;> simp [h]

theorem isNightBucket_mkBucket (key : Int) (ds : List ℚ) :
    (mkBucket key ds).isNightBucket = nightKey key := by
  unfold ConsumptionData.isNightBucket
  rw [mkBucket_from_date, mkBucket_to_date]
  rfl

theorem addReading_mkBucket (key : Int) (ds : List ℚ) (c : ConsumptionData) :
    addReading (mkBucket key ds) c = mkBucket key (ds ++ [c.day]) := by
  unfold addReading
  rw [isNightBucket_mkBucket]
  by_cases h : nightKey key
  · simp only [h, if_true, mkBucket]
    simp [h, List.sum_append]
  · simp only [h, mkBucket]
    simp [h, List.sum_append]

theorem emptyBucket_eq_mkBucket (key : Int) : emptyBucket key = mkBucket key [] := by
  unfold emptyBucket mkBucket
  by_cases h : nightKey key <;> simp [h]

theorem accInto_mkBucket (key : Int) (cs : List ConsumptionData) (ds : List ℚ) :
    accInto key (some (mkBucket key ds)) cs =
      some (mkBucket key (ds ++ cs.map (fun c => c.day))) := by
  induction cs generalizing ds with
  | nil => simp [accInto]
  | cons c rest ih =>
      show accInto key (some (addReading (mkBucket key ds) c)) rest = _
      rw [addReading_mkBucket, ih]
      simp

theorem accInto_none (key : Int) (cs : List ConsumptionData) :
    accInto key none cs =
      if cs.isEmpty then none else some (mkBucket key (cs.map (fun c => c.day))) := by
  cases cs with
  | nil => simp [accInto]
  | cons c rest =>
      show accInto key (some (addReading ((none : Option ConsumptionData).getD
        (emptyBucket key)) c)) rest = _
      rw [Option.getD_none, emptyBucket_eq_mkBucket, addReading_mkBucket, accInto_mkBucket]
      simp

theorem lookupKey_foldl_step (cs : List ConsumptionData) (m : HourlyMap) (key : Int) :
    lookupKey (cs.foldl sumHourlyStep m) key =
      accInto key (lookupKey m key) (keyReadings cs key) := by
  induction cs generalizing m with
  | nil => simp [keyReadings, accInto]
  | cons c rest ih =>
      rw [List.foldl_cons, ih]
      by_cases hk : hourFloor c.from_date = key
      · have h1 : lookupKey (sumHourlyStep m c) key =
            some (addReading ((lookupKey m key).getD (emptyBucket key)) c) := by
          unfold sumHourlyStep
          rw [hk, lookupKey_setKey_self]
        have h2 : keyReadings (c :: rest) key = c :: keyReadings rest key := by
          simp [keyReadings, List.filter_cons, hk]
        rw [h1, h2]
        rfl
      · have h1 : lookupKey (sumHourlyStep m c) key = lookupKey m key := by
          unfold sumHourlyStep
          exact lookupKey_setKey_ne _ _ _ _ (fun e => hk e.symm)
        have h2 : keyReadings (c :: rest) key = keyReadings rest key := by
          simp [keyReadings, List.filter_cons, hk]
        rw [h1, h2]

theorem keys_foldl_nodup (cs : List ConsumptionData) (m : HourlyMap)
    (h : (m.map Prod.fst).Nodup) :
    ((cs.foldl sumHourlyStep m).map Prod.fst).Nodup := by
  induction cs generalizing m with
  | nil => exact h
  | cons c rest ih =>
      rw [List.foldl_cons]
      exact ih _ (keys_setKey_nodup _ _ _ h)

theorem lookupKey_sumFold (cs : List ConsumptionData) (key : Int) :
    lookupKey (cs.foldl sumHourlyStep []) key =
      if (keyReadings cs key).isEmpty then none
      else some (mkBucket key ((keyReadings cs key).map (fun c => c.day))) := by
  rw [lookupKey_foldl_step]
  show accInto key none (keyReadings cs key) = _
  exact accInto_none key (keyReadings cs key)

/-- The central characterization of `_sum_hourly_consumptions`: the bucket the
aggregator outputs at `key` exists iff at least 4 readings floor to `key`,
and is then exactly `mkBucket` of their day-values. -/
theorem lookupKey_sumHourly_spec (cs : List ConsumptionData) (key : Int) :
    lookupKey (sumHourly cs) key =
      if 4 ≤ (keyReadings cs key).length then
        some (mkBucket key ((keyReadings cs key).map (fun c => c.day)))
      else none := by
  match cs with
  | [] => simp [sumHourly, lookupKey, keyReadings]
  | c0 :: rest =>
      show lookupKey (((c0 :: rest).foldl sumHourlyStep []).filter
        (fun kv => 4 ≤ kv.2.tickers)) key = _
      rw [lookupKey_filter _ _ _ (keys_foldl_nodup _ [] (by simp)),
        lookupKey_sumFold]
      by_cases hemp : (keyReadings (c0 :: rest) key).isEmpty
      · have hlen : (keyReadings (c0 :: rest) key).length = 0 := by
          simpa [List.isEmpty_iff_length_eq_zero] using hemp
        simp [hemp, hlen]
      · simp only [hemp, if_false]
        by_cases h4 : 4 ≤ (keyReadings (c0 :: rest) key).length <;>
          simp [h4, mkBucket_tickers]

/-- The compound test `0 <= from.hour < 7 and 0 <= to.hour <= 7` of the
source collapses to `hour_start.hour ∈ [0, 7)`: with `to = from + 1h`, the
second conjunct is implied by the first. -/
theorem nightKey_iff (key : Int) :
    nightKey key = true ↔ 0 ≤ hourOf key ∧ hourOf key < 7 := by
  unfold nightKey ConsumptionData.isNightBucket emptyBucket hourOf
  simp only [Bool.and_eq_true, decide_eq_true_eq]
  omega

/-! ## Merger lemmas -/

theorem insertPoints_starts (k : SeriesKind) (lt : Option Int) (s : ℚ) (m : HourlyMap) :
    (insertPoints k lt s m).map (fun p => p.start) =
      (m.map Prod.fst).filter (fun h => !truthySkip lt h) := by
  induction m generalizing s with
  | nil => simp [insertPoints]
  | cons kv rest ih =>
      obtain ⟨hour, c⟩ := kv
      by_cases hs : truthySkip lt hour <;>
        simp [insertPoints, hs, List.filter_cons, ih]

theorem insertPoints_mem (k : SeriesKind) (lt : Option Int) (s : ℚ) (m : HourlyMap) :
    ∀ p ∈ insertPoints k lt s m,
      ∃ kv ∈ m, kv.1 = p.start ∧ valueOf kv.2 k = p.state ∧
        truthySkip lt p.start = false := by
  induction m generalizing s with
  | nil => simp [insertPoints]
  | cons kv rest ih =>
      obtain ⟨hour, c⟩ := kv
      intro p hp
      by_cases hs : truthySkip lt hour = true
      · rw [insertPoints, if_pos hs] at hp
        obtain ⟨kv', h1, h2⟩ := ih (s := s) p hp
        exact ⟨kv', List.mem_cons_of_mem _ h1, h2⟩
      · rw [insertPoints, if_neg hs, List.mem_cons] at hp
        rcases hp with rfl | hp
        · exact ⟨(hour, c), List.mem_cons_self _ _, rfl, rfl,
            Bool.not_eq_true _ ▸ hs⟩
        · obtain ⟨kv', h1, h2⟩ := ih (s := s + valueOf c k) p hp
          exact ⟨kv', List.mem_cons_of_mem _ h1, h2⟩

theorem insertPoints_head_sum (k : SeriesKind) (lt : Option Int) :
    ∀ (m : HourlyMap) (s : ℚ) (p : StatisticData),
      (insertPoints k lt s m).head? = some p → p.sum = s + p.state := by
  intro m
  induction m with
  | nil => intro s p h; simp [insertPoints] at h
  | cons kv rest ih =>
      obtain ⟨hour, c⟩ := kv
      intro s p h
      by_cases hs : truthySkip lt hour = true
      · rw [insertPoints, if_pos hs] at h
        exact ih s p h
      · rw [insertPoints, if_neg hs, List.head?_cons, Option.some_inj] at h
        subst h
        rfl

theorem insertPoints_chain_mono (k : SeriesKind) (lt : Option Int) (m : HourlyMap)
    (hnn : ∀ kv ∈ m, 0 ≤ valueOf kv.2 k) (s : ℚ) :
    List.Chain'
      (fun p q => q.sum = p.sum + q.state ∧ p.sum ≤ q.sum ∧ (0 < q.state → p.sum < q.sum))
      (insertPoints k lt s m) := by
  induction m generalizing s with
  | nil => simp [insertPoints]
  | cons kv rest ih =>
      obtain ⟨hour, c⟩ := kv
      have hrest : ∀ kv ∈ rest, 0 ≤ valueOf kv.2 k :=
        fun kv h => hnn kv (List.mem_cons_of_mem _ h)
      by_cases hs : truthySkip lt hour = true
      · rw [insertPoints, if_pos hs]
        exact ih hrest s
      · rw [insertPoints, if_neg hs, List.chain'_cons']
        refine ⟨?_, ih hrest _⟩
        intro q hq
        have hsum := insertPoints_head_sum k lt rest _ q hq
        have hqmem : q ∈ insertPoints k lt (s + valueOf c k) rest :=
          List.mem_of_mem_head? hq
        obtain ⟨kv', hkv', _, hstate, _⟩ := insertPoints_mem k lt _ rest q hqmem
        have hqnn : 0 ≤ q.state := hstate ▸ hrest kv' hkv'
        refine ⟨hsum, by rw [hsum]; simp; linarith, fun hpos => by rw [hsum]; simp; linarith⟩

theorem insertPoints_chain_sum (k : SeriesKind) (lt : Option Int) (m : HourlyMap) (s : ℚ) :
    List.Chain' (fun p q => q.sum = p.sum + q.state) (insertPoints k lt s m) := by
  induction m generalizing s with
  | nil => simp [insertPoints]
  | cons kv rest ih =>
      obtain ⟨hour, c⟩ := kv
      by_cases hs : truthySkip lt hour = true
      · rw [insertPoints, if_pos hs]
        exact ih s
      · rw [insertPoints, if_neg hs, List.chain'_cons']
        exact ⟨fun q hq => insertPoints_head_sum k lt rest _ q hq, ih _⟩

theorem hourOf_nonneg (t : Int) : 0 ≤ hourOf t := by
  unfold hourOf
  omega

theorem mkBucket_night (key : Int) (ds : List ℚ) (h : nightKey key = true) :
    (mkBucket key ds).night = ds.sum ∧ (mkBucket key ds).day = 0 := by
  unfold mkBucket
  simp [h]

theorem mkBucket_day (key : Int) (ds : List ℚ) (h : ¬ nightKey key = true) :
    (mkBucket key ds).day = ds.sum ∧ (mkBucket key ds).night = 0 := by
  unfold mkBucket
  simp [h]

theorem mkBucket_congr (key : Int) (ds ds' : List ℚ)
    (hsum : ds.sum = ds'.sum) (hlen : ds.length = ds'.length) :
    mkBucket key ds = mkBucket key ds' := by
  unfold mkBucket
  by_cases h : nightKey key <;> simp [h, hsum, hlen]

theorem lookupKey_sumHourly_perm (cs cs' : List ConsumptionData) (key : Int)
    (hperm : cs.Perm cs') :
    lookupKey (sumHourly cs) key = lookupKey (sumHourly cs') key := by
  rw [lookupKey_sumHourly_spec, lookupKey_sumHourly_spec]
  have hkr : (keyReadings cs key).Perm (keyReadings cs' key) :=
    hperm.filter _
  have hlen : (keyReadings cs key).length = (keyReadings cs' key).length :=
    hkr.length_eq
  have hsum : ((keyReadings cs key).map (fun c => c.day)).sum =
      ((keyReadings cs' key).map (fun c => c.day)).sum :=
    (hkr.map _).sum_eq
  rw [hlen, mkBucket_congr key _ _ hsum (by simp [hlen])]

/-! ## Claim theorems -/

/-- **C4.** The aggregator's output contains exactly the hourly buckets with
at least 4 contributing readings: the bucket at `key` is present iff the
number of readings flooring to `key` is at least 4 (so a bucket accumulated
from 3 readings is absent, one from 4 or more is present), and it is then
the accumulation of those readings' day-values with `tickers` equal to
their count. -/
theorem C4_completeness_filter (cs : List ConsumptionData) (key : Int) :
    (lookupKey (sumHourly cs) key ≠ none ↔ 4 ≤ (keyReadings cs key).length)
    ∧ lookupKey (sumHourly cs) key =
        (if 4 ≤ (keyReadings cs key).length then
          some (mkBucket key ((keyReadings cs key).map (fun c => c.day)))
        else none) := by
  have h := lookupKey_sumHourly_spec cs key
  refine ⟨?_, h⟩
  rw [h]
  by_cases h4 : 4 ≤ (keyReadings cs key).length <;> simp [h4]

/-- **C8.** A chunk of the backfill walk whose fetch/aggregate raises is
exactly dropped: the combined hourly map over chunks with one erroring
chunk equals the map over the remaining chunks (the walk continues and no
error propagates), and the merge pass consequently receives the buckets of
every successful chunk unchanged. -/
theorem C8_chunk_failure_skipped (l1 l2 : List (Except String (List ConsumptionRecord)))
    (e : String) :
    processChunks (l1 ++ Except.error e :: l2) = processChunks (l1 ++ l2)
    ∧ ∀ (k : SeriesKind) (last : Option (Int × ℚ)),
        insertStatisticType (processChunks (l1 ++ Except.error e :: l2)) k last =
          insertStatisticType (processChunks (l1 ++ l2)) k last := by
  have h : processChunks (l1 ++ Except.error e :: l2) = processChunks (l1 ++ l2) := by
    unfold processChunks
    rw [List.foldl_append, List.foldl_cons, List.foldl_append]
    rfl
  exact ⟨h, fun k last => by rw [h]⟩

/-- **C9.** `from_api_response` keeps exactly the records whose
`readingsCount` is present and strictly positive, in response order; a
record with `readingsCount` 0 or absent is discarded. -/
theorem C9_pending_records_discarded (resp : List ConsumptionRecord) :
    fromApiResponse resp =
      (resp.filter keepRecord).map
        (fun r => { day := r.day, night := r.night, from_date := r.from_, to_date := r.to_ })
    ∧ ∀ r : ConsumptionRecord,
        keepRecord r = true ↔ ∃ n, r.readings_count = some n ∧ 0 < n := by
  constructor
  · induction resp with
    | nil => rfl
    | cons r rest ih =>
        by_cases h : keepRecord r <;> simp [fromApiResponse, h, List.filter_cons, ih]
  · intro r
    unfold keepRecord
    cases h : r.readings_count <;> simp

/-- **C10.** When aggregation of the fetched readings yields no complete
hourly bucket, the update cycle returns `None` and performs no statistics
store operation at all — no last-point query and no append — whatever the
store contains and even when the response was non-empty. -/
theorem C10_no_bucket_no_store_ops (records : List ConsumptionRecord) (store : Store)
    (h : sumHourly (fromApiResponse records) = []) :
    updateData records store = (none, []) := by
  unfold updateData
  simp [h]

/-- **C10 witness.** Three same-hour readings (a non-empty response) build
only an incomplete bucket; the cycle returns `None` with an empty
store-operation trace. -/
theorem C10_no_bucket_no_store_ops_witness :
    ([⟨1, 36000, 36900, false, some 1, 0⟩,
      ⟨1, 36900, 37800, false, some 1, 0⟩,
      ⟨1, 37800, 38700, false, some 1, 0⟩] : List ConsumptionRecord) ≠ []
    ∧ updateData
        [⟨1, 36000, 36900, false, some 1, 0⟩,
         ⟨1, 36900, 37800, false, some 1, 0⟩,
         ⟨1, 37800, 38700, false, some 1, 0⟩] (fun _ => none) = (none, []) :=
  ⟨by decide, C10_no_bucket_no_store_ops _ _ (by decide)⟩

/-- **C1 (counterexample).** The claim says a bucket whose `hour_start`
equals the watermark is skipped, for every series and bucket mapping.  With
the last point at epoch timestamp 0 (sum 7), the Python guard
`if last_stats_time and ...` sees a falsy `0` and skips nothing: the bucket
at `hour_start = 0` — equal to the watermark — is appended and a store
write is performed, so re-running merge right after a commit at hour 0
appends again instead of being a no-op. -/
theorem C1_watermark_zero_cex :
    insertStatisticType
        [((0 : Int), { day := 2, night := 0, from_date := 0, to_date := 3600, tickers := 4 })]
        SeriesKind.day (some ((0 : Int), (7 : ℚ))) =
      [{ start := 0, state := 2, sum := 9 }]
    ∧ performsWrite
        [((0 : Int), { day := 2, night := 0, from_date := 0, to_date := 3600, tickers := 4 })]
        SeriesKind.day (some ((0 : Int), (7 : ℚ))) = true := by
  constructor <;>
    norm_num [insertStatisticType, performsWrite, insertPoints, truthySkip, initialSum, valueOf]

/-- **C1 (amended).** Provided the stored last point's timestamp `t` is
nonzero (Python truthiness: a watermark at exactly epoch 0 disables the
skip guard), merge appends exactly the buckets with `hour_start > t`
(strict — buckets at or before the watermark are skipped), and when every
bucket key is at or before the watermark — as after a successful commit —
the batch is empty and no store write is performed. -/
theorem C1_strict_watermark (m : HourlyMap) (k : SeriesKind) (t : Int) (s : ℚ)
    (ht : t ≠ 0) :
    ((insertStatisticType m k (some (t, s))).map (fun p => p.start) =
      (m.map Prod.fst).filter (fun h => decide (t < h)))
    ∧ ((∀ kv ∈ m, kv.1 ≤ t) →
        insertStatisticType m k (some (t, s)) = []
          ∧ performsWrite m k (some (t, s)) = false) := by
  have hbne : (t != 0) = true := by simpa using ht
  have hpred : ∀ h : Int, (!truthySkip (some t) h) = decide (t < h) := by
    intro h
    by_cases hle : h ≤ t
    · have h1 : decide (h ≤ t) = true := by simpa using hle
      have h2 : decide (t < h) = false := by simp; omega
      simp [truthySkip, hbne, h1, h2]
    · have h1 : decide (h ≤ t) = false := by simp; omega
      have h2 : decide (t < h) = true := by simp; omega
      simp [truthySkip, hbne, h1, h2]
  have hstarts : (insertStatisticType m k (some (t, s))).map (fun p => p.start) =
      (m.map Prod.fst).filter (fun h => decide (t < h)) := by
    show (insertPoints k (some t) (initialSum (some (t, s))) m).map (fun p => p.start) = _
    rw [insertPoints_starts]
    exact List.filter_congr (fun a _ => hpred a)
  refine ⟨hstarts, fun hall => ?_⟩
  have hfil : (m.map Prod.fst).filter (fun h => decide (t < h)) = [] := by
    rw [List.filter_eq_nil_iff]
    intro a ha
    obtain ⟨kv, hkv, rfl⟩ := List.mem_map.mp ha
    simpa using not_lt.mpr (hall kv hkv)
  have hempty : insertStatisticType m k (some (t, s)) = [] := by
    have := hstarts.trans hfil
    exact List.map_eq_nil_iff.mp this
  exact ⟨hempty, by unfold performsWrite; rw [hempty]; rfl⟩

/-- **C1 witness.** A bucket at hour 3600 at-or-before the nonzero watermark
7200 yields an empty batch and no write. -/
theorem C1_strict_watermark_witness :
    insertStatisticType [((3600 : Int), emptyBucket 3600)] SeriesKind.day
        (some ((7200 : Int), (5 : ℚ))) = []
    ∧ performsWrite [((3600 : Int), emptyBucket 3600)] SeriesKind.day
        (some ((7200 : Int), (5 : ℚ))) = false :=
  (C1_strict_watermark _ SeriesKind.day 7200 5 (by decide)).2 (by decide)

/-- **C2 (counterexample).** Four readings, each with `day_value = 1` and
`night_value = 2`, all in hour 10: the produced bucket has
`day_total + night_total = 4`, while the sum of `day_value + night_value`
over the contributing readings is `12` — every reading's `night_value` is
dropped (the source adds `consumption.day` in both branches and never
reads `consumption.night`). -/
theorem C2_night_value_dropped_cex :
    (lookupKey (sumHourly
        [⟨1, 2, 36000, 36900, 0⟩, ⟨1, 2, 36900, 37800, 0⟩,
         ⟨1, 2, 37800, 38700, 0⟩, ⟨1, 2, 38700, 39600, 0⟩]) 36000).map
        (fun b => b.day + b.night) = some 4
    ∧ (([⟨1, 2, 36000, 36900, 0⟩, ⟨1, 2, 36900, 37800, 0⟩,
         ⟨1, 2, 37800, 38700, 0⟩, ⟨1, 2, 38700, 39600, 0⟩] : List ConsumptionData).map
        (fun c => c.day + c.night)).sum = 12
    ∧ (4 : ℚ) ≠ 12 := by
  refine ⟨?_, by norm_num, by norm_num⟩
  rw [lookupKey_sumHourly_spec]
  have hkr : keyReadings
      [⟨1, 2, 36000, 36900, 0⟩, ⟨1, 2, 36900, 37800, 0⟩,
       ⟨1, 2, 37800, 38700, 0⟩, ⟨1, 2, 38700, 39600, 0⟩] 36000 =
      [⟨1, 2, 36000, 36900, 0⟩, ⟨1, 2, 36900, 37800, 0⟩,
       ⟨1, 2, 37800, 38700, 0⟩, ⟨1, 2, 38700, 39600, 0⟩] := by
    norm_num [keyReadings, hourFloor, List.filter_cons]
  rw [hkr]
  have hnk : nightKey 36000 = false := by decide
  norm_num [mkBucket, hnk]

/-- **C2 (amended).** Each contributing reading's `day_value` is added into
the bucket's single (day-or-night) accumulator and its `night_value` is
ignored, so the bucket's `day_total + night_total` equals the sum of the
contributing readings' `day_value` alone, and `tickers` counts the
contributing readings. -/
theorem C2_day_value_only (cs : List ConsumptionData) (key : Int) (b : ConsumptionData)
    (h : lookupKey (sumHourly cs) key = some b) :
    b.day + b.night = ((keyReadings cs key).map (fun c => c.day)).sum
    ∧ b.tickers = (keyReadings cs key).length := by
  rw [lookupKey_sumHourly_spec] at h
  by_cases h4 : 4 ≤ (keyReadings cs key).length
  · rw [if_pos h4, Option.some_inj] at h
    subst h
    refine ⟨?_, by rw [mkBucket_tickers, List.length_map]⟩
    by_cases hn : nightKey key = true
    · obtain ⟨h1, h2⟩ := mkBucket_night key _ hn
      rw [h1, h2, zero_add]
    · obtain ⟨h1, h2⟩ := mkBucket_day key _ hn
      rw [h1, h2, add_zero]
  · rw [if_neg h4] at h
    cases h

/-- **C2 witness.** The amended statement evaluated on four day-1 readings
in hour 10. -/
theorem C2_day_value_only_witness :
    ({ day := 4, night := 0, from_date := 36000, to_date := 39600, tickers := 4 }
        : ConsumptionData).day +
      ({ day := 4, night := 0, from_date := 36000, to_date := 39600, tickers := 4 }
        : ConsumptionData).night =
      ((keyReadings
        [⟨1, 0, 36000, 36900, 0⟩, ⟨1, 0, 36900, 37800, 0⟩,
         ⟨1, 0, 37800, 38700, 0⟩, ⟨1, 0, 38700, 39600, 0⟩] 36000).map
        (fun c => c.day)).sum
    ∧ ({ day := 4, night := 0, from_date := 36000, to_date := 39600, tickers := 4 }
        : ConsumptionData).tickers =
      (keyReadings
        [⟨1, 0, 36000, 36900, 0⟩, ⟨1, 0, 36900, 37800, 0⟩,
         ⟨1, 0, 37800, 38700, 0⟩, ⟨1, 0, 38700, 39600, 0⟩] 36000).length :=
  C2_day_value_only _ 36000 _ (by
    rw [lookupKey_sumHourly_spec]
    have hkr : keyReadings
        [⟨1, 0, 36000, 36900, 0⟩, ⟨1, 0, 36900, 37800, 0⟩,
         ⟨1, 0, 37800, 38700, 0⟩, ⟨1, 0, 38700, 39600, 0⟩] 36000 =
        [⟨1, 0, 36000, 36900, 0⟩, ⟨1, 0, 36900, 37800, 0⟩,
         ⟨1, 0, 37800, 38700, 0⟩, ⟨1, 0, 38700, 39600, 0⟩] := by
      norm_num [keyReadings, hourFloor, List.filter_cons]
    rw [hkr]
    have hnk : nightKey 36000 = false := by decide
    norm_num [mkBucket, hnk])

/-- **C3 (counterexample).** The merger iterates `consumptions.items()` with
no sort: with keys inserted in descending order (11:00 then 01:00 on
1970-01-01 — hour keys 7200 and 3600), the appended batch keeps that
order, is not strictly ordered by `start`, and the chronologically earlier
point's `cumulative_sum` (3) includes the later hour's value. -/
theorem C3_no_sort_cex :
    insertStatisticType
        [((7200 : Int), { day := 2, night := 0, from_date := 7200, to_date := 10800, tickers := 4 }),
         ((3600 : Int), { day := 1, night := 0, from_date := 3600, to_date := 7200, tickers := 4 })]
        SeriesKind.day none =
      [{ start := 7200, state := 2, sum := 2 }, { start := 3600, state := 1, sum := 3 }]
    ∧ ¬ List.Sorted (· < ·)
        ((insertStatisticType
          [((7200 : Int), { day := 2, night := 0, from_date := 7200, to_date := 10800, tickers := 4 }),
           ((3600 : Int), { day := 1, night := 0, from_date := 3600, to_date := 7200, tickers := 4 })]
          SeriesKind.day none).map (fun p => p.start)) := by
  have h1 : insertStatisticType
      [((7200 : Int), { day := 2, night := 0, from_date := 7200, to_date := 10800, tickers := 4 }),
       ((3600 : Int), { day := 1, night := 0, from_date := 3600, to_date := 7200, tickers := 4 })]
      SeriesKind.day none =
      [{ start := 7200, state := 2, sum := 2 }, { start := 3600, state := 1, sum := 3 }] := by
    norm_num [insertStatisticType, insertPoints, truthySkip, initialSum, valueOf]
  refine ⟨h1, ?_⟩
  rw [h1]
  decide

/-- **C3 (amended).** The merger processes buckets in the mapping's
insertion order (the source never sorts); the appended starts are exactly
the non-skipped keys in that order, and only under the additional
hypothesis that the mapping's keys are in ascending insertion order is the
batch strictly ordered by `start` — each point's `cumulative_sum` always
being the previous running sum plus its own `state`. -/
theorem C3_insertion_order (m : HourlyMap) (k : SeriesKind) (last : Option (Int × ℚ))
    (hsorted : List.Sorted (· < ·) (m.map Prod.fst)) :
    ((insertStatisticType m k last).map (fun p => p.start) =
      (m.map Prod.fst).filter (fun h => !truthySkip (last.map Prod.fst) h))
    ∧ List.Sorted (· < ·) ((insertStatisticType m k last).map (fun p => p.start))
    ∧ List.Chain' (fun p q => q.sum = p.sum + q.state) (insertStatisticType m k last) := by
  have hstarts : (insertStatisticType m k last).map (fun p => p.start) =
      (m.map Prod.fst).filter (fun h => !truthySkip (last.map Prod.fst) h) :=
    insertPoints_starts k (last.map Prod.fst) (initialSum last) m
  refine ⟨hstarts, ?_, insertPoints_chain_sum k (last.map Prod.fst) m (initialSum last)⟩
  rw [hstarts]
  exact List.Pairwise.filter _ hsorted

/-- **C3 witness.** A singleton (trivially ascending) mapping. -/
theorem C3_insertion_order_witness :
    ((insertStatisticType [((3600 : Int), emptyBucket 3600)] SeriesKind.day none).map
        (fun p => p.start) =
      ([((3600 : Int), emptyBucket 3600)].map Prod.fst).filter
        (fun h => !truthySkip ((none : Option (Int × ℚ)).map Prod.fst) h))
    ∧ List.Sorted (· < ·)
        ((insertStatisticType [((3600 : Int), emptyBucket 3600)] SeriesKind.day none).map
          (fun p => p.start))
    ∧ List.Chain' (fun p q => q.sum = p.sum + q.state)
        (insertStatisticType [((3600 : Int), emptyBucket 3600)] SeriesKind.day none) :=
  C3_insertion_order _ SeriesKind.day none (by decide)

/-- **C5 (counterexample).** Complete buckets H1 = hour 3600 and H3 = hour
10800 with H2 = 7200 absent, inserted in descending order: both are
committed, but H3's `cumulative_sum` is 2 while the claim requires it to
be H1's `cumulative_sum` (3) plus H3's own value (2), i.e. 5 — the claim's
universally-quantified continuity fails because iteration follows
insertion order. -/
theorem C5_gap_descending_cex :
    insertStatisticType
        [((10800 : Int), { day := 2, night := 0, from_date := 10800, to_date := 14400, tickers := 4 }),
         ((3600 : Int), { day := 1, night := 0, from_date := 3600, to_date := 7200, tickers := 4 })]
        SeriesKind.day none =
      [{ start := 10800, state := 2, sum := 2 }, { start := 3600, state := 1, sum := 3 }]
    ∧ (2 : ℚ) ≠ 3 + 2 := by
  constructor
  · norm_num [insertStatisticType, insertPoints, truthySkip, initialSum, valueOf]
  · norm_num

/-- **C5 (amended).** With the two buckets in ascending insertion order and
both above the watermark, merging a mapping holding only H1 and H3 (the
intermediate hour absent) commits both points, H3's `cumulative_sum` being
H1's plus H3's own value — the gap hour contributes nothing and is not a
zero point. -/
theorem C5_gap_resilience (h1 h3 : Int) (b1 b3 : ConsumptionData) (k : SeriesKind)
    (t : Int) (s : ℚ) (ht1 : t < h1) (h13 : h1 < h3) :
    insertStatisticType [(h1, b1), (h3, b3)] k (some (t, s)) =
      [{ start := h1, state := valueOf b1 k, sum := s + valueOf b1 k },
       { start := h3, state := valueOf b3 k, sum := s + valueOf b1 k + valueOf b3 k }] := by
  have hs1 : ¬ (truthySkip (some t) h1 = true) := by
    simp only [truthySkip, Bool.and_eq_true, bne_iff_ne, decide_eq_true_eq, not_and]
    intro _
    omega
  have hs3 : ¬ (truthySkip (some t) h3 = true) := by
    simp only [truthySkip, Bool.and_eq_true, bne_iff_ne, decide_eq_true_eq, not_and]
    intro _
    omega
  have hs1' : truthySkip (some t) h1 = false := Bool.eq_false_iff.mpr hs1
  have hs3' : truthySkip (some t) h3 = false := Bool.eq_false_iff.mpr hs3
  show insertPoints k (some t) s [(h1, b1), (h3, b3)] = _
  simp [insertPoints, hs1', hs3']

/-- **C5 witness.** Hours 3600 and 10800 (7200 missing) over watermark 1800
with stored sum 5. -/
theorem C5_gap_resilience_witness :
    insertStatisticType
        [((3600 : Int), { day := 1, night := 0, from_date := 3600, to_date := 7200, tickers := 4 }),
         ((10800 : Int), { day := 2, night := 0, from_date := 10800, to_date := 14400, tickers := 4 })]
        SeriesKind.day (some ((1800 : Int), (5 : ℚ))) =
      [{ start := 3600, state := 1, sum := 5 + 1 },
       { start := 10800, state := 2, sum := 5 + 1 + 2 }] :=
  C5_gap_resilience 3600 10800 _ _ SeriesKind.day 1800 5 (by decide) (by decide)

/-- **C6.** When every bucket's selected value is non-negative, consecutive
committed points satisfy: the later `cumulative_sum` equals the earlier
one plus the later `state`, is never smaller, and is strictly larger
whenever the appended `state` is positive; the first point's
`cumulative_sum` is the stored running sum plus its `state`. -/
theorem C6_monotone_cumulative (m : HourlyMap) (k : SeriesKind) (last : Option (Int × ℚ))
    (hnn : ∀ kv ∈ m, 0 ≤ valueOf kv.2 k) :
    List.Chain'
      (fun p q => q.sum = p.sum + q.state ∧ p.sum ≤ q.sum ∧ (0 < q.state → p.sum < q.sum))
      (insertStatisticType m k last)
    ∧ ∀ p, (insertStatisticType m k last).head? = some p →
        p.sum = initialSum last + p.state :=
  ⟨insertPoints_chain_mono k (last.map Prod.fst) m hnn (initialSum last),
   fun p hp => insertPoints_head_sum k (last.map Prod.fst) m (initialSum last) p hp⟩

/-- **C6 witness.** One positive bucket merged into an empty series. -/
theorem C6_monotone_cumulative_witness :
    List.Chain'
      (fun p q => q.sum = p.sum + q.state ∧ p.sum ≤ q.sum ∧ (0 < q.state → p.sum < q.sum))
      (insertStatisticType
        [((3600 : Int), { day := 1, night := 0, from_date := 3600, to_date := 7200, tickers := 4 })]
        SeriesKind.day none)
    ∧ ∀ p, (insertStatisticType
        [((3600 : Int), { day := 1, night := 0, from_date := 3600, to_date := 7200, tickers := 4 })]
        SeriesKind.day none).head? = some p →
        p.sum = initialSum none + p.state :=
  C6_monotone_cumulative _ SeriesKind.day none (by
    rintro kv hkv
    rcases List.mem_singleton.mp hkv with rfl
    norm_num [valueOf])

/-- **C7.** A bucket is classified night iff its `hour_start.hour` lies in
`[0, 7)` (the source's redundant `to_date` conjunct changes nothing); a
night-hour bucket accumulates every contributing reading into the night
accumulator and a day-hour bucket into the day accumulator; and the
aggregator's output at each key is independent of the order in which the
readings arrive. -/
theorem C7_night_iff_hour_lt_7 :
    (∀ key : Int, nightKey key = true ↔ 0 ≤ hourOf key ∧ hourOf key < 7)
    ∧ (∀ (cs : List ConsumptionData) (key : Int) (b : ConsumptionData),
        lookupKey (sumHourly cs) key = some b →
          (hourOf key < 7 →
            b.night = ((keyReadings cs key).map (fun c => c.day)).sum ∧ b.day = 0)
          ∧ (7 ≤ hourOf key →
            b.day = ((keyReadings cs key).map (fun c => c.day)).sum ∧ b.night = 0))
    ∧ (∀ (cs cs' : List ConsumptionData) (key : Int), cs.Perm cs' →
        lookupKey (sumHourly cs) key = lookupKey (sumHourly cs') key) := by
  refine ⟨nightKey_iff, ?_, fun cs cs' key hp => lookupKey_sumHourly_perm cs cs' key hp⟩
  intro cs key b h
  rw [lookupKey_sumHourly_spec] at h
  by_cases h4 : 4 ≤ (keyReadings cs key).length
  · rw [if_pos h4, Option.some_inj] at h
    subst h
    constructor
    · intro hlt
      exact mkBucket_night key _ ((nightKey_iff key).mpr ⟨hourOf_nonneg key, hlt⟩)
    · intro hge
      refine mkBucket_day key _ ?_
      intro hn
      have hk := (nightKey_iff key).mp hn
      omega
  · rw [if_neg h4] at h
    cases h

/-- **C7 witness.** Arrival order does not change the aggregated bucket at
hour 7200 (02:00, a night hour). -/
theorem C7_night_iff_hour_lt_7_witness :
    lookupKey (sumHourly
      [⟨1, 0, 7200, 8100, 0⟩, ⟨2, 0, 8100, 9000, 0⟩,
       ⟨3, 0, 9000, 9900, 0⟩, ⟨4, 0, 9900, 10800, 0⟩]) 7200 =
    lookupKey (sumHourly
      [⟨4, 0, 9900, 10800, 0⟩, ⟨3, 0, 9000, 9900, 0⟩,
       ⟨2, 0, 8100, 9000, 0⟩, ⟨1, 0, 7200, 8100, 0⟩]) 7200 :=
  C7_night_iff_hour_lt_7.2.2 _ _ 7200 (by decide)

end AIL
